import Mathlib

/-!
Verification of the temporary-access session-manager core of kubconfig-cli.

The definitions below are a shallow embedding of the Go sources:

* `config/serviceaccount.go` — session records, grant creation/revocation,
  token issuance, token-expiry verification, the cleanup sweep;
* `config/token.go` — the alternative kubeconfig token-rewriting routine;
* `cmd/*` — the command layer, modelled as the sequence of `config`-package
  calls each command performs.

Go `time.Time`/`time.Duration` values are modelled as `Int` nanoseconds
(Go durations are int64 nanosecond counts).  Fallible Go functions become
`Except`/`Option`-valued Lean functions; external `kubectl` invocations are
modelled by oracles passed in as function arguments, together with traces of
the calls performed.
-/

/-- Nanoseconds per second (`time.Second` in Go). -/
def nsPerSec : Int := 1000000000

/-- `ServiceAccountConfig` from `config/serviceaccount.go`.
`ExpiresAt` is a `time.Time`, modelled as `Int` nanoseconds since the epoch. -/
structure ServiceAccountConfig where
  Name : String
  Namespace : String
  ServerURL : String
  ClusterName : String
  User : String
  ExpiresAt : Int
  CreatedAt : String
deriving DecidableEq

/-! ### String splitting

Go's `strings.Split(s, sep)` for a one-character separator, written as a
structurally recursive function on the character list so that it computes
by `rfl`.  `strings.Split("", ".") = [""]`, matching the base case. -/

/-- `strings.Split` on a single-character separator. -/
def splitOnChar (sep : Char) : List Char → List (List Char)
  | [] => [[]]
  | c :: rest =>
    if c = sep then [] :: splitOnChar sep rest
    else
      match splitOnChar sep rest with
      | s :: ss => (c :: s) :: ss
      | [] => [[c]]

/-! ### base64url decoding (`base64.RawURLEncoding.DecodeString`)

The URL-safe alphabet without padding.  Go's decoder ignores `\r` and `\n`
and rejects any other character outside the alphabet; an input whose length
(after removing newlines) is ≡ 1 (mod 4) is rejected. -/

/-- Value of one base64url alphabet character. -/
def b64Val (c : Char) : Option Nat :=
  if 65 ≤ c.toNat ∧ c.toNat ≤ 90 then some (c.toNat - 65)
  else if 97 ≤ c.toNat ∧ c.toNat ≤ 122 then some (c.toNat - 97 + 26)
  else if 48 ≤ c.toNat ∧ c.toNat ≤ 57 then some (c.toNat - 48 + 52)
  else if c = '-' then some 62
  else if c = '_' then some 63
  else none

/-- Reassemble 6-bit groups into bytes: 4 characters yield 3 bytes, a final
group of 2 or 3 characters yields 1 or 2 bytes, a final group of 1 character
is invalid. -/
def b64Groups : List Nat → Option (List Nat)
  | [] => some []
  | [_] => none
  | [a, b] => some [a * 4 + b / 16]
  | [a, b, c] => some [a * 4 + b / 16, (b % 16) * 16 + c / 4]
  | a :: b :: c :: d :: rest =>
    match b64Groups rest with
    | some bs => some ((a * 4 + b / 16) :: ((b % 16) * 16 + c / 4) :: ((c % 4) * 64 + d) :: bs)
    | none => none

/-- `base64.RawURLEncoding.DecodeString`, producing a byte list. -/
def base64RawURLDecode (cs : List Char) : Option (List Nat) :=
  match (cs.filter (fun c => !(c = '\r' || c = '\n'))).mapM b64Val with
  | some vals => b64Groups vals
  | none => none

/-! ### A model of `encoding/json` unmarshalling into `struct { Exp int64 }`

`verifyTokenExpiry` unmarshals the decoded payload into a struct with a
single `exp` field.  We model the JSON value grammar and Go's decoding
semantics for that struct: the payload must be a JSON object (or `null`),
a member whose name matches `exp` (case-insensitively, later duplicates
overwriting earlier ones) must carry an integer literal (or `null`), and a
missing member leaves the field at its zero value `0` without an error. -/

/-- The left curly bracket character. -/
def jsonLBrace : Char := Char.ofNat 123

/-- The right curly bracket character. -/
def jsonRBrace : Char := Char.ofNat 125

/-- A parsed JSON value.  `num v intLit` records whether the literal was an
integer literal (no fraction or exponent): Go's decoder only accepts integer
literals for an `int64` field. -/
inductive JValue where
  | null
  | bool (b : Bool)
  | str (s : String)
  | num (v : Int) (intLit : Bool)
  | arr (xs : List JValue)
  | obj (fields : List (String × JValue))

/-- JSON whitespace. -/
def isJsonWs (c : Char) : Bool :=
  c = ' ' || c = '\t' || c = '\n' || c = '\r'

/-- Drop leading JSON whitespace. -/
def skipJsonWs : List Char → List Char
  | [] => []
  | c :: rest => if isJsonWs c then skipJsonWs rest else c :: rest

/-- Hexadecimal digit value. -/
def hexVal (c : Char) : Option Nat :=
  if 48 ≤ c.toNat ∧ c.toNat ≤ 57 then some (c.toNat - 48)
  else if 97 ≤ c.toNat ∧ c.toNat ≤ 102 then some (c.toNat - 97 + 10)
  else if 65 ≤ c.toNat ∧ c.toNat ≤ 70 then some (c.toNat - 65 + 10)
  else none

/-- Body of a JSON string after the opening quote; handles the escape
sequences of the JSON grammar and rejects raw control characters. -/
def parseStringBody : Nat → List Char → List Char → Option (String × List Char)
  | 0, _, _ => none
  | _ + 1, _, [] => none
  | fuel + 1, acc, c :: rest =>
    if c = '"' then some (String.mk acc.reverse, rest)
    else if c = '\\' then
      match rest with
      | [] => none
      | e :: rest2 =>
        if e = '"' then parseStringBody fuel ('"' :: acc) rest2
        else if e = '\\' then parseStringBody fuel ('\\' :: acc) rest2
        else if e = '/' then parseStringBody fuel ('/' :: acc) rest2
        else if e = 'b' then parseStringBody fuel (Char.ofNat 8 :: acc) rest2
        else if e = 'f' then parseStringBody fuel (Char.ofNat 12 :: acc) rest2
        else if e = 'n' then parseStringBody fuel ('\n' :: acc) rest2
        else if e = 'r' then parseStringBody fuel ('\r' :: acc) rest2
        else if e = 't' then parseStringBody fuel ('\t' :: acc) rest2
        else if e = 'u' then
          match rest2 with
          | h1 :: h2 :: h3 :: h4 :: rest3 =>
            match hexVal h1, hexVal h2, hexVal h3, hexVal h4 with
            | some a, some b, some c2, some d =>
              parseStringBody fuel (Char.ofNat (a * 4096 + b * 256 + c2 * 16 + d) :: acc) rest3
            | _, _, _, _ => none
          | _ => none
        else none
    else if c.toNat < 32 then none
    else parseStringBody fuel (c :: acc) rest

/-- Take a maximal run of decimal digits. -/
def takeDigits : List Char → List Char × List Char
  | [] => ([], [])
  | c :: rest =>
    if c.isDigit then
      match takeDigits rest with
      | (ds, r) => (c :: ds, r)
    else ([], c :: rest)

/-- Decimal digits to a natural number. -/
def digitsToNat (ds : List Char) : Nat :=
  ds.foldl (fun a c => a * 10 + (c.toNat - 48)) 0

/-- Exponent part `e[+-]digits`; returns the remaining input. -/
def parseExponentPart : List Char → Option (List Char)
  | e :: rest =>
    if e = 'e' ∨ e = 'E' then
      let rest2 := match rest with
        | s :: r => if s = '+' ∨ s = '-' then r else s :: r
        | [] => []
      match takeDigits rest2 with
      | ([], _) => none
      | (_ :: _, r) => some r
    else none
  | [] => none

/-- A JSON number literal.  Returns the value, whether the literal was an
integer literal, and the rest of the input. -/
def parseNumber (cs : List Char) : Option ((Int × Bool) × List Char) :=
  let (neg, cs1) := match cs with
    | '-' :: r => (true, r)
    | _ => (false, cs)
  match takeDigits cs1 with
  | ([], _) => none
  | (ds, rest) =>
    if 1 < ds.length ∧ ds.head? = some '0' then none
    else
      let intVal : Int := if neg then -(digitsToNat ds : Int) else (digitsToNat ds : Int)
      match rest with
      | '.' :: r2 =>
        match takeDigits r2 with
        | ([], _) => none
        | (_ :: _, r3) =>
          match parseExponentPart r3 with
          | some r4 => some ((0, false), r4)
          | none => some ((0, false), r3)
      | _ =>
        match parseExponentPart rest with
        | some r4 => some ((0, false), r4)
        | none => some ((intVal, true), rest)

/-- Expect a literal run of characters. -/
def expectChars : List Char → List Char → Option (List Char)
  | [], cs => some cs
  | e :: es, c :: cs => if c = e then expectChars es cs else none
  | _ :: _, [] => none

mutual

/-- Parse one JSON value (fuelled recursive descent). -/
def parseJValue : Nat → List Char → Option (JValue × List Char)
  | 0, _ => none
  | fuel + 1, cs =>
    match skipJsonWs cs with
    | [] => none
    | c :: rest =>
      if c = jsonLBrace then parseJObject fuel rest
      else if c = '[' then parseJArray fuel rest
      else if c = '"' then
        match parseStringBody (rest.length + 1) [] rest with
        | some (s, r) => some (JValue.str s, r)
        | none => none
      else if c = 't' then
        match expectChars ['r', 'u', 'e'] rest with
        | some r => some (JValue.bool true, r)
        | none => none
      else if c = 'f' then
        match expectChars ['a', 'l', 's', 'e'] rest with
        | some r => some (JValue.bool false, r)
        | none => none
      else if c = 'n' then
        match expectChars ['u', 'l', 'l'] rest with
        | some r => some (JValue.null, r)
        | none => none
      else
        match parseNumber (c :: rest) with
        | some ((v, il), r) => some (JValue.num v il, r)
        | none => none

/-- Parse an object after the opening curly bracket. -/
def parseJObject : Nat → List Char → Option (JValue × List Char)
  | 0, _ => none
  | fuel + 1, cs =>
    match skipJsonWs cs with
    | c :: rest =>
      if c = jsonRBrace then some (JValue.obj [], rest)
      else parseJMembers fuel [] (c :: rest)
    | [] => none

/-- Parse the members of an object (at a key, accumulator reversed). -/
def parseJMembers : Nat → List (String × JValue) → List Char → Option (JValue × List Char)
  | 0, _, _ => none
  | fuel + 1, acc, cs =>
    match skipJsonWs cs with
    | c :: rest =>
      if c = '"' then
        match parseStringBody (rest.length + 1) [] rest with
        | some (k, r1) =>
          match skipJsonWs r1 with
          | ':' :: r2 =>
            match parseJValue fuel r2 with
            | some (v, r3) =>
              match skipJsonWs r3 with
              | ',' :: r4 => parseJMembers fuel ((k, v) :: acc) r4
              | d :: r4 =>
                if d = jsonRBrace then some (JValue.obj ((k, v) :: acc).reverse, r4)
                else none
              | [] => none
            | none => none
          | _ => none
        | none => none
      else none
    | [] => none

/-- Parse an array after the opening square bracket. -/
def parseJArray : Nat → List Char → Option (JValue × List Char)
  | 0, _ => none
  | fuel + 1, cs =>
    match skipJsonWs cs with
    | ']' :: rest => some (JValue.arr [], rest)
    | cs1 => parseJElems fuel [] cs1

/-- Parse the elements of an array (accumulator reversed). -/
def parseJElems : Nat → List JValue → List Char → Option (JValue × List Char)
  | 0, _, _ => none
  | fuel + 1, acc, cs =>
    match parseJValue fuel cs with
    | some (v, r1) =>
      match skipJsonWs r1 with
      | ',' :: r2 => parseJElems fuel (v :: acc) r2
      | ']' :: r2 => some (JValue.arr (v :: acc).reverse, r2)
      | _ => none
    | none => none

end

/-- Parse a complete JSON document; trailing non-whitespace is an error,
as in `json.Unmarshal`. -/
def parseJson (cs : List Char) : Option JValue :=
  match parseJValue (cs.length + 8) cs with
  | some (v, rest) => if skipJsonWs rest = [] then some v else none
  | none => none

/-- Lower-case an ASCII letter (Go's case-folding field match). -/
def charLowerAscii (c : Char) : Char :=
  if 65 ≤ c.toNat ∧ c.toNat ≤ 90 then Char.ofNat (c.toNat + 32) else c

/-- Does an object key match the struct tag `exp` (case-insensitively)? -/
def keyMatchesExp (k : String) : Bool :=
  k.data.map charLowerAscii == ['e', 'x', 'p']

/-- Sequentially decode the members of the payload object into the `Exp`
field: later matching members overwrite earlier ones, a matching member with
a non-integer value is an error, and `null` leaves the field untouched. -/
def decodeExpFields : List (String × JValue) → Option Int → Except String (Option Int)
  | [], acc => .ok acc
  | (k, v) :: rest, acc =>
    if keyMatchesExp k then
      match v with
      | .num n true => decodeExpFields rest (some n)
      | .null => decodeExpFields rest acc
      | _ => .error "cannot unmarshal value into Go struct field of type int64"
    else decodeExpFields rest acc

/-- `json.Unmarshal(payload, &claims)` for `claims : struct { Exp int64 }`:
the zero value `0` is returned when the object carries no `exp` member. -/
def unmarshalExpClaims (bytes : List Nat) : Except String Int :=
  match parseJson (bytes.map Char.ofNat) with
  | none => .error "invalid json payload"
  | some JValue.null => .ok 0
  | some (JValue.obj fields) =>
    match decodeExpFields fields none with
    | .ok o => .ok (o.getD 0)
    | .error e => .error e
  | some _ => .error "cannot unmarshal value into Go value of struct type"

/-- The mismatch message of `verifyTokenExpiry`, reporting the expected and
the embedded expiry. -/
def tokenExpiryMismatchMsg (expected got : Int) : String :=
  "token expiry mismatch: expected " ++ toString expected ++ ", got " ++ toString got

/-- `verifyTokenExpiry` from `config/serviceaccount.go`: split the token on
dots into exactly three segments, base64url-decode the middle segment,
unmarshal it as JSON claims, and compare the embedded `exp` (seconds, turned
into nanoseconds by `time.Unix`) with the expected expiry, allowing one
minute of difference. -/
def verifyTokenExpiry (token : String) (expectedExpiry : Int) : Except String Unit :=
  match splitOnChar '.' token.data with
  | [_, p, _] =>
    match base64RawURLDecode p with
    | none => .error "error decoding token"
    | some payload =>
      match unmarshalExpClaims payload with
      | .error e => .error ("error parsing token claims: " ++ e)
      | .ok exp =>
        if 60 * nsPerSec < |exp * nsPerSec - expectedExpiry| then
          .error (tokenExpiryMismatchMsg expectedExpiry (exp * nsPerSec))
        else .ok ()
  | _ => .error "invalid token format"

/-! ### `GetTemporaryToken` (`config/serviceaccount.go`)

The kubectl token request is an oracle `issue` mapping the requested TTL in
seconds to the returned token string; the success path of the preliminary
`waitForServiceAccount` poll is assumed.  The record returned exposes the
requested TTL, the (possibly clamped) session, and the verification result,
so that theorems can speak about which expiry the verifier was given. -/

/-- Result of a `GetTemporaryToken` run. -/
structure TokenIssuance where
  requestedSeconds : Int
  session : ServiceAccountConfig
  result : Except String String

/-- `GetTemporaryToken`: compute the remaining duration in whole seconds
(Go truncates toward zero), clamp it to the 600-second floor — also raising
the session's `ExpiresAt` to `now + 10min` in that case — request the token,
and verify its embedded expiry against the session's (updated) `ExpiresAt`. -/
def GetTemporaryToken (now : Int) (config : ServiceAccountConfig)
    (issue : Int → String) : TokenIssuance :=
  let durationSeconds := (config.ExpiresAt - now).tdiv nsPerSec
  let clamp := durationSeconds < 600
  let durationSeconds := if clamp then 600 else durationSeconds
  let config := if clamp then { config with ExpiresAt := now + 600 * nsPerSec } else config
  let token := issue durationSeconds
  { requestedSeconds := durationSeconds
    session := config
    result :=
      match verifyTokenExpiry token config.ExpiresAt with
      | .error e => .error ("token verification failed: " ++ e)
      | .ok _ => .ok token }


/-! ### The session registry and the revoke path

`activeSessions` is a `map[string]*ServiceAccountConfig`, modelled as an
association list with (in reachable states) pairwise-distinct keys.  The
`kubectl delete` invocations of `CleanupTemporaryAccess` are modelled by an
outcome oracle together with a trace of the delete actions performed. -/

/-- The in-memory session registry. -/
abbrev Registry := List (String × ServiceAccountConfig)

/-- External delete actions issued by the revoke path (both carry
`--ignore-not-found=true` in the source). -/
inductive KAction where
  | deleteClusterRoleBindingIgnoreNotFound (name : String)
  | deleteServiceAccountIgnoreNotFound (ns name : String)
deriving DecidableEq

/-- Outcomes of the external `kubectl delete` commands: `none` is success,
`some msg` is a failure with that message. -/
structure KubectlOutcomes where
  deleteClusterRoleBinding : String → Option String
  deleteServiceAccount : String → String → Option String

/-- The active-session guard of `CleanupTemporaryAccess`: some registry
entry has the same `User` and `!time.Now().After(session.ExpiresAt)`,
i.e. `now ≤ ExpiresAt`. -/
def hasActiveSessionsFor (reg : Registry) (now : Int) (config : ServiceAccountConfig) : Bool :=
  reg.any (fun p => p.2.User == config.User && !decide (p.2.ExpiresAt < now))

/-- `CleanupTemporaryAccess` from `config/serviceaccount.go`: if the guard
finds another active session for the user, return success with no external
action; otherwise delete the clusterrolebinding and then the serviceaccount,
collecting the failures of both, and return an aggregate error if any
occurred.  Returns the trace of delete actions and the error result. -/
def CleanupTemporaryAccess (out : KubectlOutcomes) (reg : Registry) (now : Int)
    (config : ServiceAccountConfig) : List KAction × Option String :=
  if hasActiveSessionsFor reg now config then ([], none)
  else
    let crbName := config.Name ++ "-admin"
    let errs :=
      (match out.deleteClusterRoleBinding crbName with
        | some e => ["failed to delete clusterrolebinding: " ++ e]
        | none => []) ++
      (match out.deleteServiceAccount config.Namespace config.Name with
        | some e => ["failed to delete serviceaccount: " ++ e]
        | none => [])
    ([KAction.deleteClusterRoleBindingIgnoreNotFound crbName,
      KAction.deleteServiceAccountIgnoreNotFound config.Namespace config.Name],
     if 0 < errs.length then some ("cleanup errors: " ++ String.intercalate "; " errs)
     else none)

/-- `delete(activeSessions, id)`. -/
def removeKey (reg : Registry) (id : String) : Registry :=
  reg.filter (fun p => !(p.1 == id))

/-- The loop body of `cleanupExpiredSessions` with the mutex ignored — i.e.
as if the in-loop `CleanupTemporaryAccess` call returned: for each entry with
`now.After(ExpiresAt)` (i.e. `ExpiresAt < now`) call `CleanupTemporaryAccess`
against the current registry, record its result, and delete the entry.  In
the source that call never returns (see `cleanupLoopLocked` below), but on
the empty registries of all reachable states the loop body is never entered
and this function coincides with the source. -/
def cleanupLoop (out : KubectlOutcomes) (now : Int) :
    List (String × ServiceAccountConfig) → Registry → Registry × List (String × Option String)
  | [], reg => (reg, [])
  | (id, session) :: rest, reg =>
    if session.ExpiresAt < now then
      let revoke := CleanupTemporaryAccess out reg now session
      let next := cleanupLoop out now rest (removeKey reg id)
      (next.1, (id, revoke.2) :: next.2)
    else cleanupLoop out now rest reg

/-- One tick of the cleanup scheduler (`cleanupExpiredSessions`) with the
mutex ignored; used for the reachable-state analysis, where the registry is
always empty and no revoke call is ever reached. -/
def cleanupExpiredSessions (out : KubectlOutcomes) (now : Int) (reg : Registry) :
    Registry × List (String × Option String) :=
  cleanupLoop out now reg reg

/-- Outcome of a cleanup tick with `activeSessionsMutex` modelled.
`cleanupExpiredSessions` acquires `activeSessionsMutex.Lock()` and holds it
for its whole body, while the `CleanupTemporaryAccess` it calls in the loop
begins with `activeSessionsMutex.RLock()` on the same mutex.  Go's
`sync.RWMutex` is not reentrant — `RLock` blocks while the write lock is
held, and the holder is this very goroutine — so the first loop iteration
that reaches the revoke call blocks forever.  A tick therefore either
completes without having removed anything, or blocks permanently at the
first strictly-expired entry with the registry unchanged. -/
inductive TickResult where
  | completed (reg : Registry) (logs : List (String × Option String))
  | deadlocked (reg : Registry) (blockedOn : String)

/-- The registry state when the tick completes, or at the permanent block. -/
def TickResult.registry : TickResult → Registry
  | .completed reg _ => reg
  | .deadlocked reg _ => reg

/-- The loop of `cleanupExpiredSessions` with the mutex modelled: entries
with `!now.After(ExpiresAt)` are skipped; at the first entry with
`ExpiresAt < now` the loop enters `CleanupTemporaryAccess`, whose `RLock()`
on the already write-locked mutex never returns, so neither the revoke nor
the `delete(activeSessions, id)` after it ever executes. -/
def cleanupLoopLocked (now : Int) :
    List (String × ServiceAccountConfig) → Registry → TickResult
  | [], reg => .completed reg []
  | (id, session) :: rest, reg =>
    if session.ExpiresAt < now then .deadlocked reg id
    else cleanupLoopLocked now rest reg

/-- One tick of the cleanup scheduler with `activeSessionsMutex` modelled. -/
def cleanupExpiredSessionsLocked (now : Int) (reg : Registry) : TickResult :=
  cleanupLoopLocked now reg reg

/-- `RegisterSession`: insert or overwrite the entry keyed by the session
name. -/
def RegisterSession (config : ServiceAccountConfig) (reg : Registry) : Registry :=
  removeKey reg config.Name ++ [(config.Name, config)]

/-! ### The command layer (`cmd/*`) and reachable registry states

Each command is transcribed as the sequence of `config`-package calls its
`Run` function can perform.  Only `RegisterSession` writes to
`activeSessions` among these (the sweep `cleanupExpiredSessions` runs as a
separate background step), so the registry effect of every other call is the
identity. -/

/-- The commands wired into the root command in `main.go`. -/
inductive Command where
  | init | list | activate | clear | current | cleanup | analyze | status
  | deactivate | verify
deriving DecidableEq

/-- Calls into the `config` package that a command may perform. -/
inductive ConfigCall where
  | saveConfig
  | loadConfig
  | createS3Session
  | validateKubeconfigName
  | startCleanupRoutine
  | createTemporaryAccess
  | getTemporaryToken
  | modifyKubeconfigWithToken
  | getServiceAccountFromConfig
  | cleanupTemporaryAccess
  | verifyTokenExpiryFile
  | registerSession (config : ServiceAccountConfig)

/-- Registry effect of one `config`-package call.  In the source, only
`RegisterSession` writes to `activeSessions`; `CleanupTemporaryAccess` only
reads it, and the remaining calls never touch it. -/
def configCallRegistryEffect (c : ConfigCall) (reg : Registry) : Registry :=
  match c with
  | .registerSession config => RegisterSession config reg
  | _ => reg

/-- The `config`-package calls each command performs, transcribed from
`cmd/status.go` (init, status), `cmd/list.go`, the activate and deactivate
commands, `cmd/clear`, `cmd/current.go`, `cmd/cleanup.go`, `cmd/analyze.go`,
`cmd/shell.go`, `cmd/token.go` and `cmd/verify.go`.  No command calls
`RegisterSession`. -/
def commandCalls : Command → List ConfigCall
  | .init => [.saveConfig]
  | .list => [.loadConfig, .createS3Session]
  | .activate => [.startCleanupRoutine, .loadConfig, .validateKubeconfigName,
      .createTemporaryAccess, .getTemporaryToken, .modifyKubeconfigWithToken]
  | .clear => []
  | .current => []
  | .cleanup => []
  | .analyze => []
  | .status => [.verifyTokenExpiryFile]
  | .deactivate => [.getServiceAccountFromConfig, .cleanupTemporaryAccess]
  | .verify => []

/-- Registry effect of a command run. -/
def runCommand (c : Command) (reg : Registry) : Registry :=
  (commandCalls c).foldl (fun r call => configCallRegistryEffect call r) reg

/-- Registry states reachable from process start: the empty registry,
then any interleaving of command runs and cleanup ticks. -/
inductive ReachableRegistry : Registry → Prop where
  | start : ReachableRegistry []
  | cmd (c : Command) (reg : Registry) (h : ReachableRegistry reg) :
      ReachableRegistry (runCommand c reg)
  | tick (out : KubectlOutcomes) (now : Int) (reg : Registry) (h : ReachableRegistry reg) :
      ReachableRegistry (cleanupExpiredSessions out now reg).1

/-! ### `CreateTemporaryAccess` (`config/serviceaccount.go`)

Modelled as the trace of kubectl calls of its success path: capability
probe, user and cluster-info lookups, the `serviceAccountExists` check, and
— only when the identity does not yet exist — the manifest `apply` followed
by the `waitForServiceAccount` confirmation poll. -/

/-- External calls of `CreateTemporaryAccess`. -/
inductive KubectlCall where
  | authCanICreateServiceAccount
  | whoami
  | clusterInfo
  | getServiceAccountCheck
  | applyManifests
  | getServiceAccountPoll
deriving DecidableEq

/-- The kubectl calls performed by `CreateTemporaryAccess`, as a function of
whether the service account for the derived name already exists. -/
def CreateTemporaryAccessCalls (saExists : Bool) : List KubectlCall :=
  [.authCanICreateServiceAccount, .whoami, .clusterInfo, .getServiceAccountCheck] ++
    (if saExists then [] else [.applyManifests, .getServiceAccountPoll])

/-- A successful `CreateTemporaryAccess` run against a cluster state that
records whether the identity exists: a successful apply followed by the
successful confirmation poll makes the identity exist. -/
def CreateTemporaryAccessRun (saExists : Bool) : Bool × List KubectlCall :=
  (true, CreateTemporaryAccessCalls saExists)

/-! ### The activate command's session-duration validation (`ActivateCmd`) -/

/-- The duration validation of `ActivateCmd`: non-positive durations and
durations above 24 hours are refused (`none`); durations below 10 minutes
are adjusted up to 10 minutes; anything else is passed through. -/
def ActivateValidateSessionDuration (d : Int) : Option Int :=
  if d ≤ 0 then none
  else if 24 * 3600 * nsPerSec < d then none
  else if d < 600 * nsPerSec then some (600 * nsPerSec)
  else some d

/-! ### Kubeconfig documents (`ModifyKubeconfigWithToken`,
`GetServiceAccountFromConfig`, and `ModifyKubeconfig` of `config/token.go`)

YAML values as decoded by `yaml.Unmarshal` into `interface{}` trees.
Mappings become association lists.  Go's unchecked type assertions
(`x.(T)` without the comma-ok form) panic when the dynamic type does not
match, so the document-reading operations return a three-way result. -/

/-- A decoded YAML value. -/
inductive YValue where
  | null
  | bool (b : Bool)
  | int (n : Int)
  | str (s : String)
  | list (xs : List YValue)
  | map (fields : List (String × YValue))

/-- Mapping lookup. -/
def ylookup (fields : List (String × YValue)) (k : String) : Option YValue :=
  match fields.find? (fun p => p.1 == k) with
  | some p => some p.2
  | none => none

/-- Mapping update: replace the value at a key, or append the binding. -/
def ymapSet : List (String × YValue) → String → YValue → List (String × YValue)
  | [], k, v => [(k, v)]
  | (k1, v1) :: rest, k, v =>
    if k1 == k then (k1, v) :: rest else (k1, v1) :: ymapSet rest k v

/-- Mapping deletion (`delete(m, k)`). -/
def ymapDel (fields : List (String × YValue)) (k : String) : List (String × YValue) :=
  fields.filter (fun p => !(p.1 == k))

/-- Outcome of a Go function that may return a value, return an error, or
panic on an unchecked type assertion. -/
inductive GoResult (α : Type) where
  | ok (a : α)
  | err (msg : String)
  | panicked (msg : String)

/-- `ModifyKubeconfigWithToken` from `config/serviceaccount.go`: unmarshal
the document, look up `users` with a checked assertion (missing, non-list or
empty yields the `no users found` error), then assert `users[0]` and its
`user` field to be mappings without the comma-ok form — a mismatch panics —
and overwrite `users[0].user.token` with the new token. -/
def ModifyKubeconfigWithToken (doc : YValue) (token : String) : GoResult YValue :=
  match doc with
  | .map kubeconfig =>
    match ylookup kubeconfig "users" with
    | some (.list users) =>
      match users with
      | [] => .err "no users found in kubeconfig"
      | u0 :: rest =>
        match u0 with
        | .map user => 
          match ylookup user "user" with
          | some (.map userData) =>
            let userData := ymapSet userData "token" (.str token)
            let user := ymapSet user "user" (.map userData)
            .ok (.map (ymapSet kubeconfig "users" (.list (YValue.map user :: rest))))
          | _ => .panicked "interface conversion"
        | _ => .panicked "interface conversion"
    | _ => .err "no users found in kubeconfig"
  | _ => .err "error parsing kubeconfig"

/-- `GetServiceAccountFromConfig` from `config/serviceaccount.go`: look up
`contexts` with a checked assertion (missing, non-list or empty yields the
`no contexts found` error), then run `contexts[0].(map[interface{}]interface{})`
without the comma-ok form.  The file decodes with `yaml.v3`, whose mappings
have dynamic type `map[string]interface{}`, so that assertion fails for every
value yaml.v3 can produce — mapping or not — and the function panics whenever
the contexts list is non-empty; the name-splitting success path of the source
text is unreachable. -/
def GetServiceAccountFromConfig (doc : YValue) : GoResult ServiceAccountConfig :=
  match doc with
  | .map kubeconfig =>
    match ylookup kubeconfig "contexts" with
    | some (.list contexts) =>
      match contexts with
      | [] => .err "no contexts found"
      | _ :: _ => .panicked "interface conversion"
    | _ => .err "no contexts found"
  | _ => .err "error parsing kubeconfig"

/-- The per-user rewrite of `ModifyKubeconfig` in `config/token.go`: for a
user entry whose `user` field is a mapping, set `token` to the generated
temporary token and delete `client-certificate-data` and `client-key-data`;
any other shape is skipped silently (comma-ok assertions). -/
def modifyUserEntry (tempToken : String) (u : YValue) : YValue :=
  match u with
  | .map userMap =>
    match ylookup userMap "user" with
    | some (.map auth) =>
      let auth := ymapSet auth "token" (.str tempToken)
      let auth := ymapDel auth "client-certificate-data"
      let auth := ymapDel auth "client-key-data"
      .map (ymapSet userMap "user" (.map auth))
    | _ => u
  | _ => u

/-- `ModifyKubeconfig` from `config/token.go` (success path of the
credential cache write): the document is a `yaml.MapSlice`; for the `users`
entry, every user in the list is rewritten with a generated temporary token
`temp-<random>-<expiry unix seconds>`. -/
def ModifyKubeconfig (doc : List (String × YValue)) (rand8 : String)
    (expiresUnix : Int) : List (String × YValue) :=
  let tempToken := "temp-" ++ rand8 ++ "-" ++ toString expiresUnix
  doc.map (fun p =>
    if p.1 == "users" then
      match p.2 with
      | .list users => (p.1, YValue.list (users.map (modifyUserEntry tempToken)))
      | _ => p
    else p)

/-! ## Shared concrete inputs and arithmetic lemmas -/

/-- A sample session record for a given user and expiry. -/
def sampleSession (user : String) (e : Int) : ServiceAccountConfig :=
  { Name := user ++ "-user", Namespace := "kube-system", ServerURL := "https://example",
    ClusterName := "cluster", User := user, ExpiresAt := e, CreatedAt := "2026-01-01" }

/-- Outcomes where every external delete fails. -/
def failingOutcomes : KubectlOutcomes :=
  { deleteClusterRoleBinding := fun _ => some "connection refused"
    deleteServiceAccount := fun _ _ => some "connection refused" }

/-- Outcomes where every external delete succeeds. -/
def okOutcomes : KubectlOutcomes :=
  { deleteClusterRoleBinding := fun _ => none
    deleteServiceAccount := fun _ _ => none }

lemma nsPerSec_pos : (0 : Int) < nsPerSec := by norm_num [nsPerSec]

lemma tdiv_lt_600 (x : Int) (h : x < 600 * nsPerSec) : x.tdiv nsPerSec < 600 := by
  rcases le_or_lt 0 x with hx | hx
  · rw [Int.tdiv_eq_ediv hx (le_of_lt nsPerSec_pos)]
    exact (Int.ediv_lt_iff_lt_mul nsPerSec_pos).2 h
  · have h1 : 0 ≤ -x := by omega
    have h2 : 0 ≤ (-x).tdiv nsPerSec := Int.tdiv_nonneg h1 (le_of_lt nsPerSec_pos)
    rw [Int.neg_tdiv] at h2
    omega

lemma le_600_tdiv (x : Int) (h : 600 * nsPerSec ≤ x) : 600 ≤ x.tdiv nsPerSec := by
  have hx : 0 ≤ x := le_trans (by norm_num [nsPerSec]) h
  rw [Int.tdiv_eq_ediv hx (le_of_lt nsPerSec_pos)]
  exact (Int.le_ediv_iff_mul_le nsPerSec_pos).2 h

lemma tdiv_le_86400 (x : Int) (h0 : 0 ≤ x) (h : x ≤ 86400 * nsPerSec) :
    x.tdiv nsPerSec ≤ 86400 := by
  rw [Int.tdiv_eq_ediv h0 (le_of_lt nsPerSec_pos)]
  have hd := Int.ediv_le_ediv nsPerSec_pos h
  rwa [Int.mul_ediv_cancel _ (ne_of_gt nsPerSec_pos)] at hd

lemma requestedSeconds_eq (now : Int) (config : ServiceAccountConfig) (issue : Int → String) :
    (GetTemporaryToken now config issue).requestedSeconds =
      if (config.ExpiresAt - now).tdiv nsPerSec < 600 then 600
      else (config.ExpiresAt - now).tdiv nsPerSec := rfl

/-- C4: when the remaining lifetime `expiresAt - now` is below 10 minutes at
issuance, `GetTemporaryToken` requests exactly the 600-second floor TTL,
raises the session's `ExpiresAt` to `now + 10min` (a strict raise), and runs
the token-expiry verification against that updated `ExpiresAt`. -/
theorem getTemporaryToken_clamps_to_floor (now : Int) (config : ServiceAccountConfig)
    (issue : Int → String) (h : config.ExpiresAt - now < 600 * nsPerSec) :
    (GetTemporaryToken now config issue).requestedSeconds = 600 ∧
    (GetTemporaryToken now config issue).session.ExpiresAt = now + 600 * nsPerSec ∧
    config.ExpiresAt < (GetTemporaryToken now config issue).session.ExpiresAt ∧
    (GetTemporaryToken now config issue).result =
      (match verifyTokenExpiry (issue 600) (now + 600 * nsPerSec) with
        | .error e => .error ("token verification failed: " ++ e)
        | .ok _ => .ok (issue 600)) := by
  have hlt : (config.ExpiresAt - now).tdiv nsPerSec < 600 := tdiv_lt_600 _ h
  unfold GetTemporaryToken
  simp only [if_pos hlt]
  refine ⟨trivial, trivial, by omega, trivial⟩

/-- Witness for `getTemporaryToken_clamps_to_floor` at a 300-second session. -/
theorem getTemporaryToken_clamps_to_floor_witness :
    (sampleSession "alice" (300 * nsPerSec)).ExpiresAt - 0 < 600 * nsPerSec ∧
    ((GetTemporaryToken 0 (sampleSession "alice" (300 * nsPerSec)) (fun _ => "tok")).requestedSeconds = 600 ∧
     (GetTemporaryToken 0 (sampleSession "alice" (300 * nsPerSec)) (fun _ => "tok")).session.ExpiresAt = 0 + 600 * nsPerSec ∧
     (sampleSession "alice" (300 * nsPerSec)).ExpiresAt <
       (GetTemporaryToken 0 (sampleSession "alice" (300 * nsPerSec)) (fun _ => "tok")).session.ExpiresAt ∧
     (GetTemporaryToken 0 (sampleSession "alice" (300 * nsPerSec)) (fun _ => "tok")).result =
       (match verifyTokenExpiry ((fun _ => "tok") 600) (0 + 600 * nsPerSec) with
         | .error e => .error ("token verification failed: " ++ e)
         | .ok _ => .ok ((fun _ => "tok") 600))) :=
  ⟨by norm_num [sampleSession, nsPerSec],
   getTemporaryToken_clamps_to_floor 0 (sampleSession "alice" (300 * nsPerSec)) (fun _ => "tok")
     (by norm_num [sampleSession, nsPerSec])⟩

/-- C8 (counterexample): a 25-hour requested duration is refused by
`ActivateCmd` with an error rather than clamped down to 24 hours. -/
theorem activate_refuses_over_24h :
    ActivateValidateSessionDuration (25 * 3600 * nsPerSec) = none ∧
    ActivateValidateSessionDuration (25 * 3600 * nsPerSec) ≠ some (24 * 3600 * nsPerSec) := by
  constructor
  · decide
  · decide

/-- C8 (amended): for every requested duration accepted by `ActivateCmd`
(positive and at most 24 hours, with sub-10-minute durations raised to 10
minutes), the effective TTL requested at token issuance lies in the closed
interval `[600 s, 86400 s]`. -/
theorem activate_effective_ttl_in_bounds (d d' now : Int) (config : ServiceAccountConfig)
    (issue : Int → String) (hval : ActivateValidateSessionDuration d = some d')
    (hexp : config.ExpiresAt = now + d') :
    600 ≤ (GetTemporaryToken now config issue).requestedSeconds ∧
    (GetTemporaryToken now config issue).requestedSeconds ≤ 86400 := by
  have hb : 600 * nsPerSec ≤ d' ∧ d' ≤ 86400 * nsPerSec := by
    unfold ActivateValidateSessionDuration at hval
    simp only [nsPerSec] at hval ⊢
    split_ifs at hval with h1 h2 h3
    · cases hval
      omega
    · cases hval
      omega
  obtain ⟨hb1, hb2⟩ := hb
  have harg : config.ExpiresAt - now = d' := by omega
  rw [requestedSeconds_eq, harg]
  by_cases hc : d'.tdiv nsPerSec < 600
  · rw [if_pos hc]
    omega
  · rw [if_neg hc]
    refine ⟨le_600_tdiv _ hb1, tdiv_le_86400 _ (by omega) hb2⟩

/-- Witness for `activate_effective_ttl_in_bounds` at the default 8-hour
session duration. -/
theorem activate_effective_ttl_in_bounds_witness :
    ActivateValidateSessionDuration (8 * 3600 * nsPerSec) = some (8 * 3600 * nsPerSec) ∧
    (sampleSession "alice" (8 * 3600 * nsPerSec)).ExpiresAt = 0 + 8 * 3600 * nsPerSec ∧
    (600 ≤ (GetTemporaryToken 0 (sampleSession "alice" (8 * 3600 * nsPerSec)) (fun _ => "tok")).requestedSeconds ∧
     (GetTemporaryToken 0 (sampleSession "alice" (8 * 3600 * nsPerSec)) (fun _ => "tok")).requestedSeconds ≤ 86400) :=
  ⟨by decide, by norm_num [sampleSession],
   activate_effective_ttl_in_bounds (8 * 3600 * nsPerSec) (8 * 3600 * nsPerSec) 0
     (sampleSession "alice" (8 * 3600 * nsPerSec)) (fun _ => "tok") (by decide)
     (by norm_num [sampleSession])⟩

/-- C2 (counterexample): when the identity resource already exists,
`CreateTemporaryAccess` performs neither the manifest apply nor the
confirmation poll — the claim that it "still proceeds directly to the
confirmation polling step" fails. -/
theorem createTemporaryAccess_exists_path_skips_poll :
    KubectlCall.getServiceAccountPoll ∉ CreateTemporaryAccessCalls true ∧
    KubectlCall.getServiceAccountPoll ∈ CreateTemporaryAccessCalls false := by
  decide

/-- C2 (amended): when the identity resource already exists the apply and
the confirmation poll are both skipped; two successive
`CreateTemporaryAccess` runs for the same principal, starting from a
cluster without the identity, perform exactly one apply — the second run
applies nothing and polls nothing. -/
theorem createTemporaryAccess_idempotent_single_apply :
    ((CreateTemporaryAccessRun false).2 ++
        (CreateTemporaryAccessRun (CreateTemporaryAccessRun false).1).2).count
      KubectlCall.applyManifests = 1 ∧
    ((CreateTemporaryAccessRun (CreateTemporaryAccessRun false).1).2).count
      KubectlCall.applyManifests = 0 ∧
    KubectlCall.getServiceAccountPoll ∉ (CreateTemporaryAccessRun (CreateTemporaryAccessRun false).1).2 := by
  decide

lemma verifyTokenExpiry_eq_of (token : String) (expected : Int) (hdr pay sig : List Char)
    (hsplit : splitOnChar '.' token.data = [hdr, pay, sig]) :
    verifyTokenExpiry token expected =
      (match base64RawURLDecode pay with
        | none => .error "error decoding token"
        | some payload =>
          match unmarshalExpClaims payload with
          | .error e => .error ("error parsing token claims: " ++ e)
          | .ok exp =>
            if 60 * nsPerSec < |exp * nsPerSec - expected| then
              .error (tokenExpiryMismatchMsg expected (exp * nsPerSec))
            else .ok ()) := by
  unfold verifyTokenExpiry
  rw [hsplit]

/-- C6 (amended): the expiry verifier accepts exactly when the token splits
on dots into three segments, the middle segment is valid base64url, its
bytes unmarshal as JSON claims yielding an `exp` value (an object without an
`exp` member is not an error: `exp` defaults to `0`), and `|exp −
expectedExpiry| ≤ 60 s`; beyond tolerance it rejects with a message
reporting both timestamps. -/
theorem verifyTokenExpiry_spec (token : String) (expected : Int) :
    (verifyTokenExpiry token expected = Except.ok () ↔
      ∃ hdr pay sig, splitOnChar '.' token.data = [hdr, pay, sig] ∧
      ∃ bytes, base64RawURLDecode pay = some bytes ∧
      ∃ exp, unmarshalExpClaims bytes = Except.ok exp ∧
        |exp * nsPerSec - expected| ≤ 60 * nsPerSec) ∧
    (∀ hdr pay sig bytes exp,
      splitOnChar '.' token.data = [hdr, pay, sig] →
      base64RawURLDecode pay = some bytes →
      unmarshalExpClaims bytes = Except.ok exp →
      60 * nsPerSec < |exp * nsPerSec - expected| →
      verifyTokenExpiry token expected =
        Except.error (tokenExpiryMismatchMsg expected (exp * nsPerSec))) := by
  constructor
  · constructor
    · intro hok
      unfold verifyTokenExpiry at hok
      split at hok
      · rename_i hdr pay sig heqs
        split at hok
        · exact Except.noConfusion hok
        · rename_i payload hdec
          split at hok
          · exact Except.noConfusion hok
          · rename_i exp hum
            split at hok
            · exact Except.noConfusion hok
            · rename_i htol
              exact ⟨hdr, pay, sig, heqs, payload, hdec, exp, hum, not_lt.1 htol⟩
      · exact Except.noConfusion hok
    · rintro ⟨hdr, pay, sig, hsplit, bytes, hdec, exp, hum, htol⟩
      rw [verifyTokenExpiry_eq_of token expected hdr pay sig hsplit]
      simp only [hdec, hum]
      rw [if_neg (not_lt.2 htol)]
  · intro hdr pay sig bytes exp hsplit hdec hum htol
    rw [verifyTokenExpiry_eq_of token expected hdr pay sig hsplit]
    simp only [hdec, hum]
    rw [if_pos htol]

/-- C6 (counterexample): a token whose payload decodes to the JSON object
with no members (bytes 123, 125) yields no parse error — `exp` silently
defaults to `0` — so the verifier accepts it whenever the expected expiry is
within a minute of the epoch, where the claim requires a `MalformedToken`
error for a payload without an integer `exp` field. -/
theorem verifyTokenExpiry_accepts_missing_exp :
    verifyTokenExpiry "h.e30.s" 0 = Except.ok () ∧
    base64RawURLDecode ("e30".data) = some [123, 125] ∧
    unmarshalExpClaims [123, 125] = Except.ok 0 :=
  ⟨rfl, rfl, rfl⟩

/-- Witness for `verifyTokenExpiry_spec`: the mismatch branch at a concrete
out-of-tolerance token. -/
theorem verifyTokenExpiry_spec_witness :
    splitOnChar '.' ("h.e30.s").data = [['h'], ['e', '3', '0'], ['s']] ∧
    base64RawURLDecode ['e', '3', '0'] = some [123, 125] ∧
    unmarshalExpClaims [123, 125] = Except.ok 0 ∧
    60 * nsPerSec < |(0 : Int) * nsPerSec - 100 * nsPerSec| ∧
    verifyTokenExpiry "h.e30.s" (100 * nsPerSec) =
      Except.error (tokenExpiryMismatchMsg (100 * nsPerSec) (0 * nsPerSec)) :=
  ⟨rfl, rfl, rfl, by decide,
   (verifyTokenExpiry_spec "h.e30.s" (100 * nsPerSec)).2 ['h'] ['e', '3', '0'] ['s']
     [123, 125] 0 rfl rfl rfl (by decide)⟩

lemma cleanupLoopLocked_registry (now : Int) :
    ∀ (l : List (String × ServiceAccountConfig)) (reg : Registry),
      (cleanupLoopLocked now l reg).registry = reg := by
  intro l
  induction l with
  | nil =>
    intro reg
    rfl
  | cons hd tl ih =>
    intro reg
    obtain ⟨id, s⟩ := hd
    by_cases hexp : s.ExpiresAt < now
    · simp only [cleanupLoopLocked, if_pos hexp]
      rfl
    · simp only [cleanupLoopLocked, if_neg hexp]
      exact ih reg

lemma cleanupLoopLocked_completed (now : Int) :
    ∀ (l : List (String × ServiceAccountConfig)) (reg : Registry),
      (∀ p ∈ l, ¬ p.2.ExpiresAt < now) →
        cleanupLoopLocked now l reg = .completed reg [] := by
  intro l
  induction l with
  | nil =>
    intro reg _
    rfl
  | cons hd tl ih =>
    intro reg h
    obtain ⟨id, s⟩ := hd
    have hexp : ¬ s.ExpiresAt < now := h (id, s) (List.mem_cons_self _ _)
    simp only [cleanupLoopLocked, if_neg hexp]
    exact ih reg (fun p hp => h p (List.mem_cons_of_mem _ hp))

lemma cleanupLoopLocked_deadlocked (now : Int) :
    ∀ (l : List (String × ServiceAccountConfig)) (reg : Registry),
      (∃ p ∈ l, p.2.ExpiresAt < now) →
        ∃ id, cleanupLoopLocked now l reg = .deadlocked reg id := by
  intro l
  induction l with
  | nil =>
    rintro reg ⟨p, hp, _⟩
    cases hp
  | cons hd tl ih =>
    rintro reg ⟨p, hp, hlt⟩
    obtain ⟨id, s⟩ := hd
    by_cases hexp : s.ExpiresAt < now
    · exact ⟨id, by simp only [cleanupLoopLocked, if_pos hexp]⟩
    · simp only [cleanupLoopLocked, if_neg hexp]
      rcases List.mem_cons.1 hp with hp1 | hp2
      · rw [hp1] at hlt
        exact absurd hlt hexp
      · exact ih reg ⟨p, hp2, hlt⟩

/-- C1 (code bug): a real cleanup tick never removes or revokes anything.
With no strictly-expired entry it completes leaving the registry unchanged
and calling no revoke; with any strictly-expired entry it self-deadlocks
inside the first in-loop revoke call (`cleanupExpiredSessions` holds the
write lock while `CleanupTemporaryAccess` read-locks the same mutex), again
leaving the registry unchanged — so the claimed removal of every entry with
`expiresAt ≤ now`, regardless of the revoke outcome, never happens (and an
entry with `expiresAt = now` is outside the sweep's strict `now.After` test
besides). -/
theorem cleanupTick_never_removes (now : Int) (reg : Registry) :
    (cleanupExpiredSessionsLocked now reg).registry = reg ∧
    ((∀ p ∈ reg, ¬ p.2.ExpiresAt < now) →
      cleanupExpiredSessionsLocked now reg = .completed reg []) ∧
    ((∃ p ∈ reg, p.2.ExpiresAt < now) →
      ∃ id, cleanupExpiredSessionsLocked now reg = .deadlocked reg id) :=
  ⟨cleanupLoopLocked_registry now reg reg,
   fun h => cleanupLoopLocked_completed now reg reg h,
   fun h => cleanupLoopLocked_deadlocked now reg reg h⟩

/-- Witness for `cleanupTick_never_removes`, discharging both hypotheses: a
registry whose one entry is unexpired (and one at the `expiresAt = now`
boundary) completes with nothing removed or revoked, and a registry with a
strictly-expired entry deadlocks the tick with the registry unchanged. -/
theorem cleanupTick_never_removes_witness :
    (∀ p ∈ [("a-user", sampleSession "a" 0), ("b-user", sampleSession "b" (10 * nsPerSec))],
      ¬ p.2.ExpiresAt < (0 : Int)) ∧
    cleanupExpiredSessionsLocked 0
        [("a-user", sampleSession "a" 0), ("b-user", sampleSession "b" (10 * nsPerSec))] =
      .completed [("a-user", sampleSession "a" 0), ("b-user", sampleSession "b" (10 * nsPerSec))] [] ∧
    (∃ p ∈ [("a-user", sampleSession "a" (-nsPerSec))], p.2.ExpiresAt < (0 : Int)) ∧
    (∃ id, cleanupExpiredSessionsLocked 0 [("a-user", sampleSession "a" (-nsPerSec))] =
      .deadlocked [("a-user", sampleSession "a" (-nsPerSec))] id) :=
  ⟨by decide,
   (cleanupTick_never_removes 0
     [("a-user", sampleSession "a" 0), ("b-user", sampleSession "b" (10 * nsPerSec))]).2.1
     (by decide),
   by decide,
   (cleanupTick_never_removes 0 [("a-user", sampleSession "a" (-nsPerSec))]).2.2 (by decide)⟩

/-- C3: in every registry state reachable from process start through any
interleaving of command runs and cleanup ticks, the active-sessions registry
is empty — no command calls `RegisterSession` — so every cleanup tick leaves
the registry unchanged and revokes nothing, and the active-session guard of
`CleanupTemporaryAccess` never finds a matching session. -/
theorem registry_always_empty (reg : Registry) (h : ReachableRegistry reg) :
    reg = [] ∧
    (∀ out now, (cleanupExpiredSessions out now reg).1 = reg ∧
      (cleanupExpiredSessions out now reg).2 = []) ∧
    (∀ now config, hasActiveSessionsFor reg now config = false) := by
  have hempty : reg = [] := by
    induction h with
    | start => rfl
    | cmd c reg h ih =>
      rw [ih]
      cases c <;> rfl
    | tick out now reg h ih =>
      rw [ih]
      rfl
  subst hempty
  exact ⟨rfl, fun out now => ⟨rfl, rfl⟩, fun now config => rfl⟩

/-- Witness for `registry_always_empty` at the initial state. -/
theorem registry_always_empty_witness :
    ReachableRegistry [] ∧
    (([] : Registry) = [] ∧
     (∀ out now, (cleanupExpiredSessions out now ([] : Registry)).1 = [] ∧
       (cleanupExpiredSessions out now ([] : Registry)).2 = []) ∧
     (∀ now config, hasActiveSessionsFor ([] : Registry) now config = false)) :=
  ⟨ReachableRegistry.start, registry_always_empty [] ReachableRegistry.start⟩

/-- C5 (amended): `CleanupTemporaryAccess` returns success with no external
deletion exactly when some registry entry has the same principal and
`now ≤ expiresAt` (non-strict: an entry whose expiry equals `now` still
counts as active); otherwise it proceeds to the deletions. -/
theorem cleanupTemporaryAccess_skip_iff (out : KubectlOutcomes) (reg : Registry) (now : Int)
    (config : ServiceAccountConfig) :
    CleanupTemporaryAccess out reg now config = ([], none) ↔
      ∃ p ∈ reg, p.2.User = config.User ∧ now ≤ p.2.ExpiresAt := by
  unfold CleanupTemporaryAccess
  by_cases hguard : hasActiveSessionsFor reg now config
  · simp only [if_pos hguard]
    unfold hasActiveSessionsFor at hguard
    simp only [List.any_eq_true, Bool.and_eq_true, beq_iff_eq, Bool.not_eq_true',
      decide_eq_false_iff_not, not_lt] at hguard
    constructor
    · intro _
      obtain ⟨p, hp, h1, h2⟩ := hguard
      exact ⟨p, hp, h1, h2⟩
    · intro _
      trivial
  · simp only [if_neg hguard]
    unfold hasActiveSessionsFor at hguard
    rw [Bool.not_eq_true, List.any_eq_false] at hguard
    constructor
    · intro hcontra
      have hfst := congrArg Prod.fst hcontra
      simp at hfst
    · rintro ⟨p, hp, huser, hle⟩
      have hq := hguard p hp
      simp [huser, not_lt.2 hle] at hq

/-- C5 (counterexample): with a single registry entry of the same principal
whose `expiresAt` equals `now`, no entry satisfies the claimed strict
`now < expiresAt`, yet the revoke path returns success without deleting
anything. -/
theorem cleanupTemporaryAccess_skips_at_boundary :
    CleanupTemporaryAccess failingOutcomes [("alice-user", sampleSession "alice" 0)] 0
        (sampleSession "alice" 0) = ([], none) ∧
    ¬∃ p ∈ [("alice-user", sampleSession "alice" 0)],
        p.2.User = (sampleSession "alice" 0).User ∧ (0 : Int) < p.2.ExpiresAt := by
  constructor
  · rfl
  · decide

/-- C7: when the active-session guard finds nothing, the teardown deletes
the clusterrolebinding first and the serviceaccount second (both
ignore-if-missing), attempts both deletions whatever the first returns, and
returns an aggregated error exactly when at least one deletion failed. -/
theorem cleanupTemporaryAccess_teardown (out : KubectlOutcomes) (reg : Registry) (now : Int)
    (config : ServiceAccountConfig) (h : hasActiveSessionsFor reg now config = false) :
    (CleanupTemporaryAccess out reg now config).1 =
      [KAction.deleteClusterRoleBindingIgnoreNotFound (config.Name ++ "-admin"),
       KAction.deleteServiceAccountIgnoreNotFound config.Namespace config.Name] ∧
    ((CleanupTemporaryAccess out reg now config).2 = none ↔
      out.deleteClusterRoleBinding (config.Name ++ "-admin") = none ∧
      out.deleteServiceAccount config.Namespace config.Name = none) := by
  unfold CleanupTemporaryAccess
  rw [h]
  simp only [Bool.false_eq_true, if_false]
  refine ⟨trivial, ?_⟩
  rcases h1 : out.deleteClusterRoleBinding (config.Name ++ "-admin") with _ | e1 <;>
    rcases h2 : out.deleteServiceAccount config.Namespace config.Name with _ | e2 <;>
      simp [h1, h2]

/-- Witness for `cleanupTemporaryAccess_teardown`: an empty registry and an
oracle whose deletes all fail — both deletions are still attempted, in
order, and an aggregate error is returned. -/
theorem cleanupTemporaryAccess_teardown_witness :
    hasActiveSessionsFor [] 0 (sampleSession "alice" 0) = false ∧
    ((CleanupTemporaryAccess failingOutcomes [] 0 (sampleSession "alice" 0)).1 =
      [KAction.deleteClusterRoleBindingIgnoreNotFound ((sampleSession "alice" 0).Name ++ "-admin"),
       KAction.deleteServiceAccountIgnoreNotFound (sampleSession "alice" 0).Namespace
         (sampleSession "alice" 0).Name] ∧
     ((CleanupTemporaryAccess failingOutcomes [] 0 (sampleSession "alice" 0)).2 = none ↔
      failingOutcomes.deleteClusterRoleBinding ((sampleSession "alice" 0).Name ++ "-admin") = none ∧
      failingOutcomes.deleteServiceAccount (sampleSession "alice" 0).Namespace
        (sampleSession "alice" 0).Name = none)) :=
  ⟨rfl, cleanupTemporaryAccess_teardown failingOutcomes [] 0 (sampleSession "alice" 0) rfl⟩

lemma ylookup_cons (k1 : String) (v1 : YValue) (rest : List (String × YValue)) (k2 : String) :
    ylookup ((k1, v1) :: rest) k2 = if k1 = k2 then some v1 else ylookup rest k2 := by
  by_cases h : k1 = k2
  · simp [ylookup, List.find?, h]
  · have hb : (k1 == k2) = false := by simp [h]
    simp [ylookup, List.find?, h, hb]

lemma ylookup_ymapSet_self (m : List (String × YValue)) (k : String) (v : YValue) :
    ylookup (ymapSet m k v) k = some v := by
  induction m with
  | nil => simp [ymapSet, ylookup_cons]
  | cons a rest ih =>
    obtain ⟨k1, v1⟩ := a
    by_cases hk : k1 = k
    · simp [ymapSet, hk, ylookup_cons]
    · simp [ymapSet, hk, ylookup_cons, ih]

lemma ylookup_ymapSet_ne (m : List (String × YValue)) (k : String) (v : YValue) (k2 : String)
    (h : k2 ≠ k) : ylookup (ymapSet m k v) k2 = ylookup m k2 := by
  induction m with
  | nil =>
    have hb : (k == k2) = false := by simp [Ne.symm h]
    simp [ymapSet, ylookup_cons, ylookup, List.find?, hb]
  | cons a rest ih =>
    obtain ⟨k1, v1⟩ := a
    by_cases hk : k1 = k
    · subst hk
      simp [ymapSet, ylookup_cons, Ne.symm h]
    · simp [ymapSet, hk, ylookup_cons, ih]

/-- C9 (code bug): on documents whose entries have unexpected types, the
document-reading operations hit unchecked Go type assertions and panic
instead of returning a structured error: `ModifyKubeconfigWithToken` panics
when `users[0]` is a plain string, and `GetServiceAccountFromConfig` panics
when `contexts[0]` is a plain string. -/
theorem malformed_kubeconfig_panics :
    ModifyKubeconfigWithToken (.map [("users", .list [.str "bob"])]) "tok" =
      .panicked "interface conversion" ∧
    GetServiceAccountFromConfig (.map [("contexts", .list [.str "ctx"])]) =
      .panicked "interface conversion" :=
  ⟨rfl, rfl⟩

/-- C10 (amended): for a well-formed document, `ModifyKubeconfigWithToken`
(the merge used by activation) overwrites exactly `users[0].user.token`: the
other top-level entries, the other users, the other fields of `users[0]` and
the other auth fields of `users[0].user` are all preserved.  The routine
`ModifyKubeconfig` of `config/token.go` does not have this property (see its
counterexample). -/
theorem modifyKubeconfigWithToken_frame (kubeconfig user0 userData : List (String × YValue))
    (rest : List YValue) (token : String)
    (husers : ylookup kubeconfig "users" = some (.list (YValue.map user0 :: rest)))
    (huser : ylookup user0 "user" = some (.map userData)) :
    ∃ kubeconfig2 user2 userData2,
      ModifyKubeconfigWithToken (.map kubeconfig) token = .ok (.map kubeconfig2) ∧
      (∀ k, k ≠ "users" → ylookup kubeconfig2 k = ylookup kubeconfig k) ∧
      ylookup kubeconfig2 "users" = some (.list (YValue.map user2 :: rest)) ∧
      (∀ k, k ≠ "user" → ylookup user2 k = ylookup user0 k) ∧
      ylookup user2 "user" = some (.map userData2) ∧
      (∀ k, k ≠ "token" → ylookup userData2 k = ylookup userData k) ∧
      ylookup userData2 "token" = some (.str token) := by
  refine ⟨ymapSet kubeconfig "users"
      (.list (YValue.map (ymapSet user0 "user"
        (.map (ymapSet userData "token" (.str token)))) :: rest)),
    ymapSet user0 "user" (.map (ymapSet userData "token" (.str token))),
    ymapSet userData "token" (.str token), ?_, ?_, ?_, ?_, ?_, ?_, ?_⟩
  · simp only [ModifyKubeconfigWithToken, husers, huser]
  · intro k hk
    exact ylookup_ymapSet_ne _ _ _ _ hk
  · exact ylookup_ymapSet_self _ _ _
  · intro k hk
    exact ylookup_ymapSet_ne _ _ _ _ hk
  · exact ylookup_ymapSet_self _ _ _
  · intro k hk
    exact ylookup_ymapSet_ne _ _ _ _ hk
  · exact ylookup_ymapSet_self _ _ _

/-- Witness for `modifyKubeconfigWithToken_frame` on a concrete document
carrying extra fields everywhere. -/
theorem modifyKubeconfigWithToken_frame_witness :
    ylookup [("apiVersion", YValue.str "v1"),
        ("users", YValue.list [YValue.map [("name", YValue.str "bob"),
          ("user", YValue.map [("token", YValue.str "old"),
            ("client-certificate-data", YValue.str "CERT")])]])] "users" =
      some (.list (YValue.map [("name", YValue.str "bob"),
        ("user", YValue.map [("token", YValue.str "old"),
          ("client-certificate-data", YValue.str "CERT")])] :: [])) ∧
    ylookup [("name", YValue.str "bob"),
        ("user", YValue.map [("token", YValue.str "old"),
          ("client-certificate-data", YValue.str "CERT")])] "user" =
      some (.map [("token", YValue.str "old"),
        ("client-certificate-data", YValue.str "CERT")]) ∧
    (∃ kubeconfig2 user2 userData2,
      ModifyKubeconfigWithToken (.map [("apiVersion", YValue.str "v1"),
          ("users", YValue.list [YValue.map [("name", YValue.str "bob"),
            ("user", YValue.map [("token", YValue.str "old"),
              ("client-certificate-data", YValue.str "CERT")])]])]) "new" =
        .ok (.map kubeconfig2) ∧
      (∀ k, k ≠ "users" → ylookup kubeconfig2 k =
        ylookup [("apiVersion", YValue.str "v1"),
          ("users", YValue.list [YValue.map [("name", YValue.str "bob"),
            ("user", YValue.map [("token", YValue.str "old"),
              ("client-certificate-data", YValue.str "CERT")])]])] k) ∧
      ylookup kubeconfig2 "users" = some (.list (YValue.map user2 :: [])) ∧
      (∀ k, k ≠ "user" → ylookup user2 k =
        ylookup [("name", YValue.str "bob"),
          ("user", YValue.map [("token", YValue.str "old"),
            ("client-certificate-data", YValue.str "CERT")])] k) ∧
      ylookup user2 "user" = some (.map userData2) ∧
      (∀ k, k ≠ "token" → ylookup userData2 k =
        ylookup [("token", YValue.str "old"),
          ("client-certificate-data", YValue.str "CERT")] k) ∧
      ylookup userData2 "token" = some (.str "new")) :=
  ⟨rfl, rfl,
   modifyKubeconfigWithToken_frame
     [("apiVersion", YValue.str "v1"),
      ("users", YValue.list [YValue.map [("name", YValue.str "bob"),
        ("user", YValue.map [("token", YValue.str "old"),
          ("client-certificate-data", YValue.str "CERT")])]])]
     [("name", YValue.str "bob"),
      ("user", YValue.map [("token", YValue.str "old"),
        ("client-certificate-data", YValue.str "CERT")])]
     [("token", YValue.str "old"), ("client-certificate-data", YValue.str "CERT")]
     [] "new" rfl rfl⟩

/-- C10 (counterexample): `ModifyKubeconfig` of `config/token.go` does not
merely replace `users[0].user.token` with the provided token: it installs a
generated temporary token and deletes the `client-certificate-data` auth
field, which was present in the input. -/
theorem modifyKubeconfig_deletes_cert_data :
    ModifyKubeconfig [("users", YValue.list [YValue.map [("user",
        YValue.map [("token", YValue.str "orig"),
          ("client-certificate-data", YValue.str "CERT")])]])] "abcd1234" 100 =
      [("users", YValue.list [YValue.map [("user",
        YValue.map [("token", YValue.str "temp-abcd1234-100")])]])] ∧
    ylookup [("token", YValue.str "orig"), ("client-certificate-data", YValue.str "CERT")]
        "client-certificate-data" = some (YValue.str "CERT") :=
  ⟨rfl, rfl⟩
